import Mathlib

/-!
Verification of the record-store / access-control core of the church
registry application (`main.py`).

The program persists tables as spreadsheet files: a header row followed by
data rows; each cell holds a Python value (`None`, an `int`, or a `str`).
We embed a cell as `Cell`, a worksheet as `Sheet` (header plus data rows),
and translate the store operations (`add_record`, `edit_record`,
`delete_record`, `load_data`, `filter_tree`), the authenticator
(`attempt_login`), the audit log (`log_action`) and the initialization
routine (`criar_arquivos_se_nao_existir`) into pure Lean functions.

The credential hasher (`hash_password`, SHA-256 in the source) is a leaf
dependency whose internals are irrelevant to every claim; the development
is parameterized by an arbitrary function `hash : String → String`
standing for it, and witnesses instantiate it with a concrete function.
-/

set_option autoImplicit false

namespace CadIgrejas

/-- A spreadsheet cell value: Python `None`, an `int`, or a `str`
(the three value shapes the program ever reads or writes). -/
inductive Cell where
  | none
  | int (i : Int)
  | str (s : String)
deriving DecidableEq, Repr

/-- Python `str(cell)`: `None` renders as the text `"None"`, an int as its
decimal form, a string as itself. -/
def cellStr : Cell → String
  | Cell.none => "None"
  | Cell.int i => toString i
  | Cell.str s => s

/-- Python `s.isdigit()` (restricted to ASCII digits): nonempty and
every character a digit. -/
def str_isdigit (s : String) : Bool :=
  !s.isEmpty && s.data.all Char.isDigit

/-- Python `int(s)` on an all-digit string. -/
def parseDigits (s : String) : Nat :=
  s.data.foldl (fun a c => a * 10 + (c.toNat - 48)) 0

/-- Python substring test `needle in hay`, on character lists:
`startsWithChars n h` is "h starts with n". -/
def startsWithChars : List Char → List Char → Bool
  | [], _ => true
  | _ :: _, [] => false
  | a :: as, b :: bs => a == b && startsWithChars as bs

/-- `hasSubChars n h` is "n occurs as a contiguous run inside h". -/
def hasSubChars (needle : List Char) : List Char → Bool
  | [] => startsWithChars needle []
  | b :: bs => startsWithChars needle (b :: bs) || hasSubChars needle bs

/-- Python `needle in hay` for strings. -/
def pyIn (needle hay : String) : Bool :=
  hasSubChars needle.data hay.data

/-- Python `s.lower()` as the program uses it (ASCII case folding):
per-character lowercasing.  (`String.toLower` computes the same string
but its recursor does not reduce in the kernel, so the character-list
form is used.) -/
def pyLower (s : String) : String :=
  String.mk (s.data.map Char.toLower)

/-- A persisted worksheet: the header row and the data rows
(`iter_rows(min_row=2)` enumerates exactly `data`). -/
structure Sheet where
  header : List Cell
  data : List (List Cell)
deriving DecidableEq, Repr

-- --- add_record -------------------------------------------------------

/-- The new-ID rule of `add_record` applied to the value of
`ws.cell(row=ws.max_row, column=1)` (the first cell of the last row):
`new_id = int(last_id) + 1` when `last_id is not None and
str(last_id).isdigit()`, else `new_id = 1`.  For an int cell,
`str(i).isdigit()` holds exactly when `0 ≤ i` and `int(i) = i`;
for a string cell the text is checked and parsed; for `None` the
check fails. -/
def newIdFromLast : Cell → Nat
  | Cell.none => 1
  | Cell.int i => if 0 ≤ i then i.toNat + 1 else 1
  | Cell.str s => if str_isdigit s then parseDigits s + 1 else 1

/-- The ID `add_record` assigns, from the data rows: `1` when there are
no data rows (`ws.max_row > 1` fails), else the last-row rule.
A missing first cell of the last row reads as `None` in openpyxl. -/
def newId (data : List (List Cell)) : Nat :=
  match data.getLast? with
  | Option.none => 1
  | some row => newIdFromLast (row.headD Cell.none)

/-- The row `add_record` appends: `new_row = [new_id] + dialog.result`,
and for the Users file `new_row[2] = hash_password(new_row[2])`
(index 2 of `new_row` is `result[1]`, which for the Users dialog is the
Permissão field, since the Users schema has no ID column and the dialog
drops its first header).  When `result` has fewer than two entries the
Python code would raise `IndexError`; the Users dialog always submits
exactly two fields, so that case is left as the unhashed row. -/
def buildRow (hash : String → String) (isUsers : Bool) (nid : Int)
    (result : List String) : List Cell :=
  let base := Cell.int nid :: result.map Cell.str
  if isUsers then
    match result.get? 1 with
    | some v => base.set 2 (Cell.str (hash v))
    | Option.none => base
  else base

/-- `DataWindow.add_record`: computes the new ID from the last data row,
builds the row (hashing index 2 for the Users file) and appends it.
Returns the sheet and the assigned ID. -/
def add_record (hash : String → String) (isUsers : Bool) (s : Sheet)
    (result : List String) : Sheet × Int :=
  let nid : Int := Int.ofNat (newId s.data)
  ({ s with data := s.data ++ [buildRow hash isUsers nid result] }, nid)

/-- A sequence of `add_record` calls, collecting the assigned IDs. -/
def runCreates (hash : String → String) (isUsers : Bool) (s : Sheet) :
    List (List String) → Sheet × List Int
  | [] => (s, [])
  | res :: rest =>
    let r1 := add_record hash isUsers s res
    let r2 := runCreates hash isUsers r1.1 rest
    (r2.1, r1.2 :: r2.2)

-- --- load_data / filter_tree ------------------------------------------

/-- The display masking of `load_data` / `filter_tree`: for the Users
file, `display_row[1] = '********'` (a row with fewer than two cells
would raise `IndexError` in Python; Users rows have three cells). -/
def maskRow (isUsers : Bool) (row : List Cell) : List Cell :=
  if isUsers then row.set 1 (Cell.str "********") else row

/-- `DataWindow.load_data`: every data row is shown, masked for Users. -/
def load_data (isUsers : Bool) (data : List (List Cell)) : List (List Cell) :=
  data.map (maskRow isUsers)

/-- `DataWindow.filter_tree`: lowercases the query, keeps each data row
with `any(search_term in str(cell).lower() for cell in row)` — every
cell participates, including the Users SenhaHash cell — and shows the
kept rows masked. -/
def filter_tree (isUsers : Bool) (q : String) (data : List (List Cell)) :
    List (List Cell) :=
  let search_term := pyLower q
  (data.filter (fun row =>
      row.any (fun c => pyIn search_term (pyLower (cellStr c))))).map
    (maskRow isUsers)

-- --- edit_record / delete_record --------------------------------------

/-- The row scan shared by `edit_record` and `delete_record`: the 0-based
index of the first data row satisfying the predicate. -/
def findRowIdx (p : List Cell → Bool) : List (List Cell) → Option Nat
  | [] => Option.none
  | row :: rest =>
    if p row then some 0 else (findRowIdx p rest).map (· + 1)

/-- `ws.cell(row, col, value)` over columns `1..len(new)`: the new values
overwrite positionally; cells of the old row beyond them stay. -/
def overwriteRow (old new : List Cell) : List Cell :=
  new ++ old.drop new.length

/-- `DataWindow.edit_record`: finds the first data row whose first cell
equals `record_id`, builds `updated_row = [record_id] + dialog.result`,
and for the Users file — when `dialog.result[1]` (the Permissão field)
differs from `'********'`, which it always does since Permissão is a
combobox over roles — sets `updated_row[2] = hash_password(dialog.result[1])`.
The row is then written positionally.  A missing `result[1]` would be a
Python `IndexError`; the Users dialog always submits two fields. -/
def edit_record (hash : String → String) (isUsers : Bool) (s : Sheet)
    (record_id : Cell) (result : List String) : Sheet :=
  match findRowIdx (fun row => row.headD Cell.none == record_id) s.data with
  | Option.none => s
  | some i =>
    let updated := record_id :: result.map Cell.str
    let updated :=
      if isUsers && !(result.getD 1 "" == "********") then
        updated.set 2 (Cell.str (hash (result.getD 1 "")))
      else updated
    { s with data := s.data.set i (overwriteRow (s.data.getD i []) updated) }

/-- The data-row effect of `DataWindow.delete_record`: remove the first
data row whose first cell equals `record_id`; if none matches, the
sheet is unchanged (an error dialog is shown). -/
def deleteData (record_id : Cell) (data : List (List Cell)) :
    List (List Cell) :=
  match findRowIdx (fun row => row.headD Cell.none == record_id) data with
  | Option.none => data
  | some i => data.eraseIdx i

/-- `DataWindow.delete_record` on a sheet. -/
def delete_record (s : Sheet) (record_id : Cell) : Sheet :=
  { s with data := deleteData record_id s.data }

-- --- audit log / login -------------------------------------------------

/-- The state of the log file as `log_action` finds it: present and
writable, missing (loading raises `FileNotFoundError`), or failing on
save with another I/O error (e.g. the file locked by another process —
`PermissionError`/`OSError`, which the `except FileNotFoundError`
handler does not catch). -/
inductive LogFileState where
  | avail (rows : List (List Cell))
  | missing
  | writeErr
deriving DecidableEq, Repr

/-- What a `log_action` call does to its caller. -/
inductive LogOutcome where
  | wrote (rows : List (List Cell))
  | warned
  | raised
deriving DecidableEq, Repr

/-- `log_action(usuario, acao)`: appends `[usuario, acao, timestamp]` to
the log; `FileNotFoundError` is caught and shown as a warning; any
other exception escapes the `try` block and propagates. -/
def log_action (lf : LogFileState) (usuario acao ts : String) : LogOutcome :=
  match lf with
  | LogFileState.avail rows =>
      LogOutcome.wrote (rows ++ [[Cell.str usuario, Cell.str acao, Cell.str ts]])
  | LogFileState.missing => LogOutcome.warned
  | LogFileState.writeErr => LogOutcome.raised

/-- The per-row test of `attempt_login`:
`row[0] == usuario and row[1] == hash_password(senha)` (a cell equals a
Python string only when it is that string). -/
def loginMatch (hash : String → String) (usuario senha : String)
    (row : List Cell) : Bool :=
  row.headD Cell.none == Cell.str usuario &&
    row.getD 1 Cell.none == Cell.str (hash senha)

/-- The scan of `attempt_login` over the Users data rows: first match. -/
def findUser (hash : String → String) (usuario senha : String) :
    List (List Cell) → Option (List Cell)
  | [] => Option.none
  | row :: rest =>
    if loginMatch hash usuario senha row then some row
    else findUser hash usuario senha rest

/-- The result of a login attempt: success with the stored role
(`row[2]`), failure (error dialog, nothing else happens), or an
uncaught exception propagating out of the handler. -/
inductive LoginResult where
  | success (role : Cell)
  | failure
  | exception
deriving DecidableEq, Repr

/-- Whether a login result is a success. -/
def LoginResult.isSuccess : LoginResult → Bool
  | LoginResult.success _ => true
  | _ => false

/-- Whether a login result is an escaped exception. -/
def LoginResult.isException : LoginResult → Bool
  | LoginResult.exception => true
  | _ => false

/-- `LoginWindow.attempt_login`: scans the Users rows for the first one
matching the submitted username and hashed secret; on a match it calls
`log_action(usuario, "Login bem-sucedido")` and hands the stored role
to `on_success`; with no match it shows an error and leaves the log
untouched.  Returns the result and the log file state afterwards. -/
def attempt_login (hash : String → String) (usuario senha ts : String)
    (users : List (List Cell)) (lf : LogFileState) :
    LoginResult × LogFileState :=
  match findUser hash usuario senha users with
  | some row =>
    match log_action lf usuario "Login bem-sucedido" ts with
    | LogOutcome.wrote rows =>
        (LoginResult.success (row.getD 2 Cell.none), LogFileState.avail rows)
    | LogOutcome.warned =>
        (LoginResult.success (row.getD 2 Cell.none), LogFileState.missing)
    | LogOutcome.raised => (LoginResult.exception, LogFileState.writeErr)
  | Option.none => (LoginResult.failure, lf)

-- --- initialization ----------------------------------------------------

def VISITORS_HEADERS : List String :=
  ["ID", "Nome", "Telefone", "Email", "Endereço", "Data Nascimento",
   "Data Visita", "Igreja", "Observações", "Família"]

def MEMBERS_HEADERS : List String :=
  ["ID", "Nome", "Telefone", "Email", "Data Nascimento", "Cargo",
   "Batizado", "Endereço", "Família"]

def EMPLOYEES_HEADERS : List String :=
  ["ID", "Nome", "Cargo", "Telefone", "Email", "Data Admissão",
   "Salário", "Observações", "Família"]

def USERS_HEADERS : List String := ["Usuário", "SenhaHash", "Permissão"]

def LOG_HEADERS : List String := ["Usuário", "Ação", "DataHora"]

/-- A fresh table: its header row and no data rows. -/
def headerSheet (hdrs : List String) : Sheet :=
  { header := hdrs.map Cell.str, data := [] }

/-- The five persisted files; `Option.none` is an absent file. -/
structure FileSystem where
  visitors : Option Sheet
  members : Option Sheet
  employees : Option Sheet
  users : Option Sheet
  log : Option Sheet
deriving DecidableEq, Repr

/-- `if not os.path.exists(file): create with header` for one file. -/
def ensureFile (o : Option Sheet) (d : Sheet) : Option Sheet :=
  match o with
  | some s => some s
  | Option.none => some d

/-- `criar_arquivos_se_nao_existir`: each data/log file is created with
just its header when absent; the Users file, when absent, is created
with its header plus the seeded row
`["admin", hash_password("admin"), "admin"]`.  Existing files are left
untouched. -/
def criar_arquivos_se_nao_existir (hash : String → String)
    (fs : FileSystem) : FileSystem :=
  { visitors := ensureFile fs.visitors (headerSheet VISITORS_HEADERS)
    members := ensureFile fs.members (headerSheet MEMBERS_HEADERS)
    employees := ensureFile fs.employees (headerSheet EMPLOYEES_HEADERS)
    log := ensureFile fs.log (headerSheet LOG_HEADERS)
    users := ensureFile fs.users
      { header := USERS_HEADERS.map Cell.str
        data := [[Cell.str "admin", Cell.str (hash "admin"),
                  Cell.str "admin"]] } }

-- --- spec-side definitions (for refinement comparisons) ----------------

/-- The numeric value of an Identifier cell when the spec would count it:
a nonnegative int, or an all-digit string; `Option.none` otherwise. -/
def cellNumVal : Cell → Option Nat
  | Cell.int i => if 0 ≤ i then some i.toNat else Option.none
  | Cell.str s => if str_isdigit s then some (parseDigits s) else Option.none
  | Cell.none => Option.none

/-- The identifier rule as the spec states it: one plus the maximum
numeric Identifier among all existing data rows, non-numeric or missing
values treated as absent; `1` when no numeric Identifier exists. -/
def spec_new_id (data : List (List Cell)) : Nat :=
  (data.filterMap (fun row => cellNumVal (row.headD Cell.none))).foldl
    Nat.max 0 + 1

/-- Search matching as the spec states it: a record matches when at
least one NON-SECRET field's case-insensitive text contains the
case-insensitive query; for the Users kind the secret column (index 1)
is excluded from matching entirely. -/
def spec_search_matches (isUsers : Bool) (q : String) (row : List Cell) :
    Bool :=
  let cells := if isUsers then row.take 1 ++ row.drop 2 else row
  cells.any (fun c => pyIn (pyLower q) (pyLower (cellStr c)))

/-- A concrete stand-in for the credential hasher, used by witnesses and
counterexamples (its internals never matter: every theorem is
parameterized over the hasher). -/
def hash0 (s : String) : String := s ++ "#h"

-- ========================= helper lemmas ==============================

theorem buildRow_headD (hash : String → String) (u : Bool) (nid : Int)
    (res : List String) :
    (buildRow hash u nid res).headD Cell.none = Cell.int nid := by
  unfold buildRow
  cases u with
  | false => rfl
  | true =>
    cases h : res.get? 1 with
    | none => simp [h]
    | some v => simp [h]

theorem newId_append_buildRow (hash : String → String) (u : Bool)
    (data : List (List Cell)) (res : List String) :
    newId (data ++ [buildRow hash u (Int.ofNat (newId data)) res])
      = newId data + 1 := by
  have h := buildRow_headD hash u (Int.ofNat (newId data)) res
  rw [newId, List.getLast?_concat]
  show newIdFromLast
      ((buildRow hash u (Int.ofNat (newId data)) res).headD Cell.none)
    = newId data + 1
  rw [h]
  simp [newIdFromLast, Int.natCast_nonneg]

theorem runCreates_ids (hash : String → String) (u : Bool) (hdr : List Cell)
    (inputs : List (List String)) :
    ∀ data : List (List Cell),
      (runCreates hash u ⟨hdr, data⟩ inputs).2
        = (List.range' (newId data) inputs.length).map Int.ofNat := by
  induction inputs with
  | nil => intro data; simp [runCreates]
  | cons res rest ih =>
    intro data
    show Int.ofNat (newId data)
        :: (runCreates hash u
              ⟨hdr, data ++ [buildRow hash u (Int.ofNat (newId data)) res]⟩
              rest).2
      = (List.range' (newId data) (rest.length + 1)).map Int.ofNat
    rw [ih, newId_append_buildRow, List.range'_succ]
    rfl

-- ========================= claim theorems =============================

/-- C1 (status: code_bug).  For a create on the Users kind the code does
NOT store `digest(secret)` in the SenhaHash column: because the Users
schema has no ID column, `new_row = [new_id] + dialog.result` puts the
submitted secret at index 1 (the SenhaHash column) and the role at
index 2, and `new_row[2] = hash_password(new_row[2])` hashes the ROLE.
For every hasher, every submitted secret and role, and every prior
sheet state, the appended row is
`[new_id, plaintext secret, digest(role)]` — the SenhaHash column holds
the plaintext secret itself, contradicting the claim. -/
theorem add_record_user_stores_plaintext_secret (hash : String → String)
    (senha perm : String) (s : Sheet) :
    (add_record hash true s [senha, perm]).1.data
      = s.data ++ [[Cell.int (Int.ofNat (newId s.data)), Cell.str senha,
                    Cell.str (hash perm)]] := rfl

/-- C2 counterexample (claim as stated is false).  The code derives the
new Identifier from the LAST data row only, not from the maximum over
all rows: on a table whose data rows carry Identifiers 5 then 3,
`add_record` assigns 4, while the claimed rule (max existing + 1)
yields 6. -/
theorem add_record_not_max_based_cex :
    (add_record hash0 false ⟨[], [[Cell.int 5], [Cell.int 3]]⟩ ["x"]).2
        = (4 : Int)
  ∧ spec_new_id [[Cell.int 5], [Cell.int 3]] = 6 := by
  constructor <;> rfl

/-- C2 (status: corrected).  The assigned Identifier is one plus the
value in the LAST data row's first cell when that value is a
nonnegative integer or an all-digit string (earlier rows are never
consulted), and 1 otherwise — when the table has no data rows, or the
last row's first cell is `None`, a negative integer, a non-digit
string, or missing altogether; consequently, for every sequence of
create calls into an empty table the returned Identifiers are the
strictly increasing sequence 1, 2, 3, …. -/
theorem add_record_identifier_assignment (hash : String → String)
    (u : Bool) (hdr tail : List Cell) (data : List (List Cell))
    (res : List String) (k m : Nat) (ds ns : String)
    (inputs : List (List String)) :
    (add_record hash u ⟨hdr, []⟩ res).2 = 1
  ∧ (add_record hash u ⟨hdr, data ++ [Cell.int (Int.ofNat k) :: tail]⟩ res).2
      = Int.ofNat (k + 1)
  ∧ (str_isdigit ds = true →
      (add_record hash u ⟨hdr, data ++ [Cell.str ds :: tail]⟩ res).2
        = Int.ofNat (parseDigits ds + 1))
  ∧ (add_record hash u ⟨hdr, data ++ [Cell.none :: tail]⟩ res).2 = 1
  ∧ (add_record hash u
        ⟨hdr, data ++ [Cell.int (Int.negSucc m) :: tail]⟩ res).2 = 1
  ∧ (str_isdigit ns = false →
      (add_record hash u ⟨hdr, data ++ [Cell.str ns :: tail]⟩ res).2 = 1)
  ∧ (add_record hash u ⟨hdr, data ++ [([] : List Cell)]⟩ res).2 = 1
  ∧ (runCreates hash u ⟨hdr, []⟩ inputs).2
      = (List.range' 1 inputs.length).map Int.ofNat := by
  refine ⟨rfl, ?_, ?_, ?_, ?_, ?_, ?_, ?_⟩
  · show Int.ofNat (newId (data ++ [Cell.int (Int.ofNat k) :: tail]))
        = Int.ofNat (k + 1)
    rw [newId, List.getLast?_concat]
    simp [newIdFromLast]
  · intro hds
    show Int.ofNat (newId (data ++ [Cell.str ds :: tail]))
        = Int.ofNat (parseDigits ds + 1)
    rw [newId, List.getLast?_concat]
    simp [newIdFromLast, hds]
  · show Int.ofNat (newId (data ++ [Cell.none :: tail])) = 1
    rw [newId, List.getLast?_concat]
    simp [newIdFromLast]
  · show Int.ofNat (newId (data ++ [Cell.int (Int.negSucc m) :: tail])) = 1
    rw [newId, List.getLast?_concat]
    have hneg : ¬ (0 : Int) ≤ Int.negSucc m :=
      not_le.mpr (Int.negSucc_lt_zero m)
    simp [newIdFromLast, hneg]
  · intro hns
    show Int.ofNat (newId (data ++ [Cell.str ns :: tail])) = 1
    rw [newId, List.getLast?_concat]
    simp [newIdFromLast, hns]
  · show Int.ofNat (newId (data ++ [([] : List Cell)])) = 1
    rw [newId, List.getLast?_concat]
    simp [newIdFromLast]
  · rw [runCreates_ids]
    rfl

/-- C2 witness: the digit-string and non-digit-string branches of the
assignment rule, applied to concrete one-row tables (last cell `"7"`
gives 8; last cell `"x"` gives 1). -/
theorem add_record_identifier_assignment_witness :
    (add_record hash0 false ⟨[], [[Cell.str "7"]]⟩ ["a"]).2 = (8 : Int)
  ∧ (add_record hash0 false ⟨[], [[Cell.str "x"]]⟩ ["a"]).2 = (1 : Int) :=
  ⟨(add_record_identifier_assignment hash0 false [] [] [] ["a"] 0 0 "7" "x"
      []).2.2.1 (by decide),
   (add_record_identifier_assignment hash0 false [] [] [] ["a"] 0 0 "7" "x"
      []).2.2.2.2.2.1 (by decide)⟩

/-- C3 (status: code_bug).  For an update on the Users kind submitting
the redaction placeholder as the secret field, the stored digest is NOT
left unchanged: the code tests `dialog.result[1]` (the Permissão field,
never equal to the placeholder) instead of the secret field, writes the
literal placeholder text into the SenhaHash column and
`hash_password(role)` into the Permissão column.  Shown here by
evaluating `edit_record` on a one-row Users sheet. -/
theorem edit_record_user_placeholder_overwrites_digest
    (hash : String → String) (u oldDigest : String) :
    edit_record hash true
      { header := USERS_HEADERS.map Cell.str
        data := [[Cell.str u, Cell.str oldDigest, Cell.str "leitura"]] }
      (Cell.str u) ["********", "admin"]
      = { header := USERS_HEADERS.map Cell.str
          data := [[Cell.str u, Cell.str "********",
                    Cell.str (hash "admin")]] } := by
  have h1 : (Cell.str u == Cell.str u) = true := beq_self_eq_true' _
  simp [edit_record, findRowIdx, h1, overwriteRow]

/-- C8 counterexample (claim as stated is false).  Not every I/O failure
of the audit append is downgraded to a warning: only
`FileNotFoundError` is caught.  When the save itself fails (the model's
`writeErr` state, e.g. the log file locked by another process), the
exception escapes `log_action` and the triggering login aborts instead
of completing. -/
theorem log_action_uncaught_io_cex :
    log_action LogFileState.writeErr "admin" "Login bem-sucedido" "t0"
        = LogOutcome.raised
  ∧ (attempt_login hash0 "admin" "admin" "t0"
        [[Cell.str "admin", Cell.str (hash0 "admin"), Cell.str "admin"]]
        LogFileState.writeErr).1
      = LoginResult.exception := by
  constructor <;> rfl

/-- C8 (status: corrected).  The audit append's failure handling: a
successful append writes exactly one entry; a missing log file
(`FileNotFoundError`) is caught and downgraded to a user-visible
warning; any other I/O failure of the append propagates uncaught.  When
the failure is the caught kind, the triggering operation still
completes: a login attempted with the log file missing never ends in an
escaped exception. -/
theorem log_action_failure_policy (u a ts senha : String)
    (rows users : List (List Cell)) (hash : String → String) :
    log_action (LogFileState.avail rows) u a ts
        = LogOutcome.wrote
            (rows ++ [[Cell.str u, Cell.str a, Cell.str ts]])
  ∧ log_action LogFileState.missing u a ts = LogOutcome.warned
  ∧ log_action LogFileState.writeErr u a ts = LogOutcome.raised
  ∧ (attempt_login hash u senha ts users LogFileState.missing).1.isException
      = false := by
  refine ⟨rfl, rfl, rfl, ?_⟩
  cases h : findUser hash u senha users <;>
    simp [attempt_login, h, log_action, LoginResult.isException]

/-- C9 (status: confirmed).  Initialization is idempotent and exact:
running it twice equals running it once; an existing file of any of
the five tables is left completely untouched; an absent data/log file
is created with exactly its schema header row and no data rows; the
absent Users file is created with its header row plus the single seeded
row `["admin", digest("admin"), "admin"]`. -/
theorem criar_arquivos_idempotent_initialization (hash : String → String)
    (fs : FileSystem) (s : Sheet) :
    criar_arquivos_se_nao_existir hash
        (criar_arquivos_se_nao_existir hash fs)
      = criar_arquivos_se_nao_existir hash fs
  ∧ (criar_arquivos_se_nao_existir hash
      { fs with visitors := some s }).visitors = some s
  ∧ (criar_arquivos_se_nao_existir hash
      { fs with visitors := Option.none }).visitors
      = some (headerSheet VISITORS_HEADERS)
  ∧ (criar_arquivos_se_nao_existir hash
      { fs with members := some s }).members = some s
  ∧ (criar_arquivos_se_nao_existir hash
      { fs with members := Option.none }).members
      = some (headerSheet MEMBERS_HEADERS)
  ∧ (criar_arquivos_se_nao_existir hash
      { fs with employees := some s }).employees = some s
  ∧ (criar_arquivos_se_nao_existir hash
      { fs with employees := Option.none }).employees
      = some (headerSheet EMPLOYEES_HEADERS)
  ∧ (criar_arquivos_se_nao_existir hash
      { fs with log := some s }).log = some s
  ∧ (criar_arquivos_se_nao_existir hash
      { fs with log := Option.none }).log
      = some (headerSheet LOG_HEADERS)
  ∧ (criar_arquivos_se_nao_existir hash
      { fs with users := some s }).users = some s
  ∧ (criar_arquivos_se_nao_existir hash
      { fs with users := Option.none }).users
      = some { header := USERS_HEADERS.map Cell.str
               data := [[Cell.str "admin", Cell.str (hash "admin"),
                         Cell.str "admin"]] } := by
  refine ⟨?_, rfl, rfl, rfl, rfl, rfl, rfl, rfl, rfl, rfl, rfl⟩
  simp only [criar_arquivos_se_nao_existir]
  cases hv : fs.visitors <;> cases hm : fs.members <;>
    cases he : fs.employees <;> cases hu : fs.users <;> cases hl : fs.log <;>
      rfl

-- ================= helper lemmas for search / delete / login ==========

theorem hasSubChars_nil_needle (l : List Char) : hasSubChars [] l = true := by
  cases l <;> simp [hasSubChars, startsWithChars]

theorem pyIn_empty_needle (hay : String) : pyIn "" hay = true :=
  hasSubChars_nil_needle hay.data

theorem pyLower_empty : pyLower "" = "" := rfl

theorem any_eq_decide (row : List Cell) (f : Cell → Bool) :
    row.any f = decide (∃ c ∈ row, f c = true) := by
  by_cases h : ∃ c ∈ row, f c = true
  · rw [decide_eq_true h]
    exact List.any_eq_true.mpr h
  · rw [decide_eq_false h]
    exact Bool.eq_false_iff.mpr (fun ht => h (List.any_eq_true.mp ht))

theorem maskRow_headD (isUsers : Bool) (row : List Cell) :
    (maskRow isUsers row).headD Cell.none = row.headD Cell.none := by
  cases isUsers with
  | false => rfl
  | true => cases row <;> rfl

theorem findRowIdx_none_all (p : List Cell → Bool) (data : List (List Cell))
    (h : findRowIdx p data = Option.none) :
    data.all (fun r => !p r) = true := by
  induction data with
  | nil => rfl
  | cons r rest ih =>
    by_cases hp : p r
    · simp [findRowIdx, hp] at h
    · simp only [findRowIdx, hp, if_neg, Bool.false_eq_true, if_false,
        Option.map_eq_none'] at h
      simp [List.all_cons, hp, ih h]

theorem findRowIdx_cons_id (id : Cell) (r : List Cell)
    (rest : List (List Cell)) :
    findRowIdx (fun row => row.headD Cell.none == id) (r :: rest)
      = if r.headD Cell.none == id then some 0
        else (findRowIdx (fun row => row.headD Cell.none == id) rest).map
              (· + 1) := rfl

theorem deleteData_cons_pos (id : Cell) (r : List Cell)
    (rest : List (List Cell)) (hp : (r.headD Cell.none == id) = true) :
    deleteData id (r :: rest) = rest := by
  unfold deleteData
  rw [findRowIdx_cons_id, hp]
  rfl

theorem deleteData_cons_neg_none (id : Cell) (r : List Cell)
    (rest : List (List Cell)) (hp : (r.headD Cell.none == id) = false)
    (hrec : findRowIdx (fun row => row.headD Cell.none == id) rest
        = Option.none) :
    deleteData id (r :: rest) = r :: rest := by
  unfold deleteData
  rw [findRowIdx_cons_id, hp, hrec]
  rfl

theorem deleteData_cons_neg_some (id : Cell) (r : List Cell)
    (rest : List (List Cell)) (j : Nat)
    (hp : (r.headD Cell.none == id) = false)
    (hrec : findRowIdx (fun row => row.headD Cell.none == id) rest
        = some j) :
    deleteData id (r :: rest) = r :: rest.eraseIdx j
  ∧ deleteData id rest = rest.eraseIdx j := by
  constructor
  · unfold deleteData
    rw [findRowIdx_cons_id, hp, hrec]
    rfl
  · unfold deleteData
    rw [hrec]

theorem deleteData_all_ne (id : Cell) (data : List (List Cell))
    (h : (data.map (fun r => r.headD Cell.none)).Nodup) :
    (deleteData id data).all (fun r => !(r.headD Cell.none == id)) = true := by
  induction data with
  | nil => rfl
  | cons r rest ih =>
    rw [List.map_cons, List.nodup_cons] at h
    obtain ⟨hnotin, hrest⟩ := h
    by_cases hp : (r.headD Cell.none == id) = true
    · have hid : r.headD Cell.none = id := of_decide_eq_true hp
      rw [deleteData_cons_pos id r rest hp]
      rw [List.all_eq_true]
      intro x hx
      rw [Bool.not_eq_true']
      refine beq_eq_false_iff_ne.mpr (fun hxid => hnotin ?_)
      rw [hid, ← hxid]
      exact List.mem_map_of_mem _ hx
    · have hp' : (r.headD Cell.none == id) = false := by
        rw [Bool.eq_false_iff]; exact hp
      cases hrec : findRowIdx (fun row => row.headD Cell.none == id) rest with
      | none =>
        rw [deleteData_cons_neg_none id r rest hp' hrec]
        have hall := findRowIdx_none_all _ _ hrec
        rw [List.all_cons, hp', hall]
        rfl
      | some j =>
        rw [(deleteData_cons_neg_some id r rest j hp' hrec).1]
        have ih' := ih hrest
        rw [(deleteData_cons_neg_some id r rest j hp' hrec).2] at ih'
        rw [List.all_cons, hp', ih']
        rfl

theorem maskRow_getD_one (row : List Cell) (h : 2 ≤ row.length) :
    (maskRow true row).getD 1 Cell.none = Cell.str "********" := by
  cases row with
  | nil => simp at h
  | cons a t =>
    cases t with
    | nil => simp at h
    | cons b r => rfl

theorem loginMatch_iff (hash : String → String) (u p : String)
    (row : List Cell) :
    loginMatch hash u p row = true ↔
      row.headD Cell.none = Cell.str u ∧
        row.getD 1 Cell.none = Cell.str (hash p) := by
  simp [loginMatch, Bool.and_eq_true, beq_iff_eq]

theorem findUser_isSome_iff (hash : String → String) (u p : String)
    (users : List (List Cell)) :
    (findUser hash u p users).isSome = true ↔
      ∃ row ∈ users, row.headD Cell.none = Cell.str u ∧
        row.getD 1 Cell.none = Cell.str (hash p) := by
  induction users with
  | nil => simp [findUser]
  | cons r rest ih =>
    by_cases hm : loginMatch hash u p r = true
    · simp only [findUser, hm, if_true, Option.isSome_some, true_iff]
      exact ⟨r, List.mem_cons_self r rest, (loginMatch_iff hash u p r).mp hm⟩
    · simp only [findUser, hm, if_false, Bool.false_eq_true, ih]
      constructor
      · rintro ⟨row, hmem, hrow⟩
        exact ⟨row, List.mem_cons_of_mem r hmem, hrow⟩
      · rintro ⟨row, hmem, hrow⟩
        rcases List.mem_cons.mp hmem with heq | hmem'
        · exact absurd ((loginMatch_iff hash u p r).mpr (heq ▸ hrow)) hm
        · exact ⟨row, hmem', hrow⟩

theorem findUser_first_match (hash : String → String) (u p : String)
    (pre suf : List (List Cell)) (row : List Cell)
    (hm : loginMatch hash u p row = true)
    (hpre : pre.all (fun r => !loginMatch hash u p r) = true) :
    findUser hash u p (pre ++ row :: suf) = some row := by
  induction pre with
  | nil => simp [findUser, hm]
  | cons a t ih =>
    rw [List.all_cons, Bool.and_eq_true] at hpre
    have ha : loginMatch hash u p a = false := by
      rw [← Bool.not_eq_true']; exact hpre.1
    show findUser hash u p (a :: (t ++ row :: suf)) = some row
    rw [show findUser hash u p (a :: (t ++ row :: suf))
        = findUser hash u p (t ++ row :: suf) by simp [findUser, ha]]
    exact ih hpre.2

-- ========================= claim theorems (2) =========================

/-- C4 counterexample (claim as stated is false).  The secret column is
NOT excluded from matching: `filter_tree` tests every cell of the
stored row, including the Users SenhaHash cell.  A Users row whose
digest contains "zz" while no non-secret field does is returned by the
search, though the spec-side matcher (non-secret fields only) rejects
it. -/
theorem filter_tree_matches_secret_cex :
    filter_tree true "zz" [[Cell.str "u", Cell.str "zz99", Cell.str "admin"]]
        = [[Cell.str "u", Cell.str "********", Cell.str "admin"]]
  ∧ spec_search_matches true "zz"
        [Cell.str "u", Cell.str "zz99", Cell.str "admin"] = false := by
  constructor <;> rfl

/-- C4 (status: corrected).  Search matching characterized: on rows
with at least one cell (openpyxl data rows always have one), the empty
query returns every record (masked exactly as `list` shows them), and
in general a record is returned exactly when at least one of its
fields — including, for the Users kind, the stored secret digest —
has a case-insensitive textual form containing the case-insensitive
query as a substring. -/
theorem filter_tree_matching_characterization (isUsers : Bool) (q : String)
    (data : List (List Cell))
    (hne : data.all (fun row => !row.isEmpty) = true) :
    filter_tree isUsers "" data = load_data isUsers data
  ∧ filter_tree isUsers q data
      = (data.filter (fun row =>
            decide (∃ c ∈ row,
              pyIn (pyLower q) (pyLower (cellStr c)) = true))).map
          (maskRow isUsers) := by
  constructor
  · show (data.filter (fun row =>
        row.any (fun c => pyIn (pyLower "") (pyLower (cellStr c))))).map
          (maskRow isUsers)
      = load_data isUsers data
    rw [show (data.filter (fun row =>
          row.any (fun c => pyIn (pyLower "") (pyLower (cellStr c))))) = data
        from List.filter_eq_self.mpr (fun row hrow => by
          have hr := List.all_eq_true.mp hne row hrow
          cases row with
          | nil => simp at hr
          | cons c rest =>
            rw [List.any_cons, pyLower_empty, pyIn_empty_needle]
            rfl)]
    rfl
  · show (data.filter (fun row =>
        row.any (fun c => pyIn (pyLower q) (pyLower (cellStr c))))).map
          (maskRow isUsers) = _
    rw [List.filter_congr (fun row _ => any_eq_decide row _)]

/-- C4 witness: the characterization applied to a concrete two-row
Users table (one matching row, one not). -/
theorem filter_tree_matching_characterization_witness :
    filter_tree true "" [[Cell.str "u", Cell.str "zz99", Cell.str "admin"],
        [Cell.str "v", Cell.str "ok", Cell.str "leitura"]]
      = load_data true [[Cell.str "u", Cell.str "zz99", Cell.str "admin"],
        [Cell.str "v", Cell.str "ok", Cell.str "leitura"]]
  ∧ filter_tree true "zz"
        [[Cell.str "u", Cell.str "zz99", Cell.str "admin"],
         [Cell.str "v", Cell.str "ok", Cell.str "leitura"]]
      = ([[Cell.str "u", Cell.str "zz99", Cell.str "admin"],
          [Cell.str "v", Cell.str "ok", Cell.str "leitura"]].filter
            (fun row => decide (∃ c ∈ row,
              pyIn (pyLower "zz") (pyLower (cellStr c)) = true))).map
          (maskRow true) :=
  ⟨(filter_tree_matching_characterization true ""
      [[Cell.str "u", Cell.str "zz99", Cell.str "admin"],
       [Cell.str "v", Cell.str "ok", Cell.str "leitura"]] (by decide)).1,
   (filter_tree_matching_characterization true "zz"
      [[Cell.str "u", Cell.str "zz99", Cell.str "admin"],
       [Cell.str "v", Cell.str "ok", Cell.str "leitura"]] (by decide)).2⟩

/-- C5 counterexample (claim as stated is false).  Deleted Identifiers
are NOT retired: on an empty table two creates return Identifiers 1
and 2; after deleting the row with Identifier 2, the next create
returns 2 again (the new-ID rule only looks at the last remaining
row).  Moreover, when two rows share an Identifier (possible under
external file edits), deleting that Identifier removes only the first
row, so `list` still contains a record with it. -/
theorem delete_record_reuse_cex :
    (runCreates hash0 false ⟨[], []⟩ [["a"], ["b"]]).2 = [1, 2]
  ∧ (runCreates hash0 false
        (delete_record (runCreates hash0 false ⟨[], []⟩ [["a"], ["b"]]).1
          (Cell.int 2)) [["c"]]).2 = [2]
  ∧ (deleteData (Cell.int 1)
        [[Cell.int 1, Cell.str "a"], [Cell.int 1, Cell.str "b"]]).all
        (fun r => !(r.headD Cell.none == Cell.int 1)) = false := by
  refine ⟨rfl, rfl, rfl⟩

/-- C5 (status: corrected).  Provided the Identifiers of the table's
rows are pairwise distinct (the normal state), after
`delete_record(id)` the listing of the table (for any kind) contains
no record whose Identifier cell equals `id`.  Deleted Identifiers may
however be reused by a later create (see the counterexample). -/
theorem delete_record_removes_unique_identifier (s : Sheet) (id : Cell)
    (isUsers : Bool)
    (h : (s.data.map (fun r => r.headD Cell.none)).Nodup) :
    (load_data isUsers (delete_record s id).data).all
        (fun r => !(r.headD Cell.none == id)) = true := by
  rw [load_data, List.all_map]
  rw [show ((fun r => !(r.headD Cell.none == id)) ∘ maskRow isUsers)
      = (fun r => !(r.headD Cell.none == id)) from
    funext (fun r => by
      show (!((maskRow isUsers r).headD Cell.none == id)) = _
      rw [maskRow_headD])]
  exact deleteData_all_ne id s.data h

/-- C5 witness: the theorem applied to a concrete two-row table with
distinct Identifiers. -/
theorem delete_record_removes_unique_identifier_witness :
    (load_data false
        (delete_record ⟨[], [[Cell.int 1, Cell.str "a"],
                             [Cell.int 2, Cell.str "b"]]⟩
          (Cell.int 1)).data).all
        (fun r => !(r.headD Cell.none == Cell.int 1)) = true :=
  delete_record_removes_unique_identifier
    ⟨[], [[Cell.int 1, Cell.str "a"], [Cell.int 2, Cell.str "b"]]⟩
    (Cell.int 1) false (by decide)

/-- C6 (status: confirmed).  For every Users table state whose rows have
at least the two schema columns reaching the SenhaHash cell (Users rows
have three), every record returned by `load_data` carries the fixed
eight-asterisk placeholder in the secret column — the true stored
digest is never returned. -/
theorem load_data_users_redacted (data : List (List Cell))
    (h : data.all (fun row => decide (2 ≤ row.length)) = true) :
    (load_data true data).all
        (fun row => row.getD 1 Cell.none == Cell.str "********") = true := by
  rw [load_data, List.all_map, List.all_eq_true]
  intro row hrow
  have h2 : 2 ≤ row.length :=
    of_decide_eq_true (List.all_eq_true.mp h row hrow)
  show ((maskRow true row).getD 1 Cell.none == Cell.str "********") = true
  rw [maskRow_getD_one row h2]
  exact beq_self_eq_true' _

/-- C6 witness: the theorem applied to a concrete Users table holding
the seeded admin row and one more user. -/
theorem load_data_users_redacted_witness :
    (load_data true [[Cell.str "admin", Cell.str (hash0 "admin"),
                      Cell.str "admin"],
                     [Cell.str "u", Cell.str (hash0 "pw"),
                      Cell.str "leitura"]]).all
        (fun row => row.getD 1 Cell.none == Cell.str "********") = true :=
  load_data_users_redacted
    [[Cell.str "admin", Cell.str (hash0 "admin"), Cell.str "admin"],
     [Cell.str "u", Cell.str (hash0 "pw"), Cell.str "leitura"]]
    (by decide)

/-- C7 (status: confirmed).  With the log file available: a login
attempt succeeds exactly when some Users data row has its Username
cell equal to the submitted username and its SenhaHash cell equal to
`digest(secret)`; when it fails, `AuthFailure` is reported and the log
is untouched; and when the first matching row is `row` (no earlier row
matches), the stored Role `row[2]` is returned and exactly one audit
entry `[username, "Login bem-sucedido", timestamp]` is appended. -/
theorem attempt_login_spec (hash : String → String) (u p ts : String)
    (users logRows pre suf : List (List Cell)) (row : List Cell) :
    ((attempt_login hash u p ts users (LogFileState.avail logRows)).1.isSuccess
        = true ↔
      ∃ r ∈ users, r.headD Cell.none = Cell.str u ∧
        r.getD 1 Cell.none = Cell.str (hash p))
  ∧ ((attempt_login hash u p ts users (LogFileState.avail logRows)).1.isSuccess
        = false →
      attempt_login hash u p ts users (LogFileState.avail logRows)
        = (LoginResult.failure, LogFileState.avail logRows))
  ∧ (loginMatch hash u p row = true →
     pre.all (fun r => !loginMatch hash u p r) = true →
     attempt_login hash u p ts (pre ++ row :: suf)
         (LogFileState.avail logRows)
       = (LoginResult.success (row.getD 2 Cell.none),
          LogFileState.avail
            (logRows ++ [[Cell.str u, Cell.str "Login bem-sucedido",
                          Cell.str ts]]))) := by
  refine ⟨?_, ?_, ?_⟩
  · rw [← findUser_isSome_iff hash u p users]
    cases hf : findUser hash u p users with
    | none => simp [attempt_login, hf, log_action, LoginResult.isSuccess]
    | some r => simp [attempt_login, hf, log_action, LoginResult.isSuccess]
  · intro hfail
    cases hf : findUser hash u p users with
    | none => simp [attempt_login, hf]
    | some r =>
      rw [show (attempt_login hash u p ts users
            (LogFileState.avail logRows)).1
          = LoginResult.success (r.getD 2 Cell.none) by
        simp [attempt_login, hf, log_action]] at hfail
      simp [LoginResult.isSuccess] at hfail
  · intro hm hpre
    rw [show attempt_login hash u p ts (pre ++ row :: suf)
          (LogFileState.avail logRows)
        = match findUser hash u p (pre ++ row :: suf) with
          | some r =>
              (LoginResult.success (r.getD 2 Cell.none),
               LogFileState.avail
                 (logRows ++ [[Cell.str u, Cell.str "Login bem-sucedido",
                               Cell.str ts]]))
          | Option.none => (LoginResult.failure, LogFileState.avail logRows)
        from by
          cases hf : findUser hash u p (pre ++ row :: suf) <;>
            simp [attempt_login, hf, log_action]]
    rw [findUser_first_match hash u p pre suf row hm hpre]

/-- C7 witness: the theorem applied to a concrete one-row Users table
and an empty log. -/
theorem attempt_login_spec_witness :
    attempt_login hash0 "admin" "pw" "t"
        [[Cell.str "admin", Cell.str (hash0 "pw"), Cell.str "admin"]]
        (LogFileState.avail [])
      = (LoginResult.success (Cell.str "admin"),
         LogFileState.avail
           [[Cell.str "admin", Cell.str "Login bem-sucedido",
             Cell.str "t"]]) :=
  (attempt_login_spec hash0 "admin" "pw" "t" [] [] [] []
      [Cell.str "admin", Cell.str (hash0 "pw"), Cell.str "admin"]).2.2
    (by decide) (by decide)

/-- C10 (status: confirmed).  Search renders cells with `str(...)`, so
an absent (`None`) cell reads as the text `"None"`: every record
containing at least one empty cell is returned (in display form) by
every search whose lowercased query occurs in `"none"` — for example
the query "NO" — even when no actual stored field text contains the
query. -/
theorem filter_tree_none_text_matches (isUsers : Bool) (q : String)
    (data : List (List Cell)) (row : List Cell)
    (hrow : row ∈ data) (hc : Cell.none ∈ row)
    (hq : pyIn (pyLower q) "none" = true) :
    maskRow isUsers row ∈ filter_tree isUsers q data := by
  have hmatch : row.any
      (fun c => pyIn (pyLower q) (pyLower (cellStr c))) = true := by
    refine List.any_eq_true.mpr ⟨Cell.none, hc, ?_⟩
    show pyIn (pyLower q) (pyLower "None") = true
    rw [show pyLower "None" = "none" from rfl]
    exact hq
  show maskRow isUsers row ∈
    (data.filter (fun r =>
        r.any (fun c => pyIn (pyLower q) (pyLower (cellStr c))))).map
      (maskRow isUsers)
  exact List.mem_map_of_mem _ (List.mem_filter.mpr ⟨hrow, hmatch⟩)

/-- C10 witness: a record with an empty cell is returned for the query
"NO" although no stored text contains it. -/
theorem filter_tree_none_text_matches_witness :
    maskRow false [Cell.str "a", Cell.none]
      ∈ filter_tree false "NO" [[Cell.str "a", Cell.none]] :=
  filter_tree_none_text_matches false "NO" [[Cell.str "a", Cell.none]]
    [Cell.str "a", Cell.none] (by decide) (by decide) (by decide)

end CadIgrejas
